import Mathlib

/-
Verification development for the open.node.rtunnel repository.

The TypeScript sources (src/server.ts, src/client.ts, and the whitelist
server variant) are shallowly embedded below: JS `Map`s become association
lists with unique keys, JS `Set`s become duplicate-free lists, `Buffer`s
become `List Nat` (byte values), and the side effects performed by the
handlers (WebSocket sends, socket end/write, listener close, console
output) become explicit effect lists.  Node exceptions (RangeError from
out-of-range Buffer reads) are modelled with `Except`.
-/

namespace RTunnel

/-! ## Association-list maps and sets (JS Map / Set) -/

def mget {κ α : Type} [DecidableEq κ] : List (κ × α) → κ → Option α
  | [], _ => none
  | (k', v) :: rest, k => if k' = k then some v else mget rest k

def mset {κ α : Type} [DecidableEq κ] : List (κ × α) → κ → α → List (κ × α)
  | [], k, v => [(k, v)]
  | (k', v') :: rest, k, v => if k' = k then (k, v) :: rest else (k', v') :: mset rest k v

/-- `Map.delete`.  Keys in any JS `Map` are unique, so removing every
pair with the key is extensionally the same as removing the single one. -/
def mdel {κ α : Type} [DecidableEq κ] (m : List (κ × α)) (k : κ) : List (κ × α) :=
  m.filter (fun p => p.1 != k)

/-- `Set.add`. -/
def sadd {κ : Type} [DecidableEq κ] (s : List κ) (k : κ) : List κ :=
  if k ∈ s then s else s ++ [k]

/-- `Set.delete`. -/
def sdel {κ : Type} [DecidableEq κ] (s : List κ) (k : κ) : List κ :=
  s.filter (fun y => y != k)

/-! ## Frame codec (encodeMessage / decodeMessage, identical in server.ts
and client.ts) -/

inductive JsError : Type
  | rangeError
deriving DecidableEq

/-- `Buffer.writeUInt32BE`: the four big-endian bytes of a 32-bit word. -/
def toBE32 (n : Nat) : List Nat :=
  [n / 16777216 % 256, n / 65536 % 256, n / 256 % 256, n % 256]

/-- `Buffer.writeUInt16BE`: the two big-endian bytes of a 16-bit word. -/
def toBE16 (n : Nat) : List Nat :=
  [n / 256 % 256, n % 256]

/-- `buffer.readUInt32BE(off)` on four explicit bytes. -/
def fromBE32 (a b c d : Nat) : Nat :=
  a * 16777216 + b * 65536 + c * 256 + d

/-- `encodeMessage(type, linkId, content)`: two big-endian 32-bit words
followed by the payload. -/
def encodeMessage (type linkId : Nat) (content : List Nat := []) : List Nat :=
  toBE32 type ++ toBE32 linkId ++ content

/-- `decodeMessage(buffer)`: `readUInt32BE(0)`, `readUInt32BE(4)`,
`slice(8)`.  A buffer shorter than 8 bytes makes one of the two
`readUInt32BE` calls throw a RangeError; the pattern match below is the
same function on byte lists. -/
def decodeMessage (buffer : List Nat) : Except JsError (Nat × Nat × List Nat) :=
  match buffer with
  | b0 :: b1 :: b2 :: b3 :: b4 :: b5 :: b6 :: b7 :: rest =>
      .ok (fromBE32 b0 b1 b2 b3, fromBE32 b4 b5 b6 b7, rest)
  | _ => .error .rangeError

/-! ## Server data model (server.ts) -/

/-- One entry of `client.links` (the socket handle itself is external;
effects refer to it through the link id). -/
structure Link : Type where
  buffer : List (List Nat)
  confirmed : Bool
  bufferSize : Nat
deriving DecidableEq

/-- `host:port` bind key; the source uses the string
`host + ":" + port`, modelled as the (host bytes, port) pair it encodes. -/
abbrev BindKey : Type := List Nat × Nat

/-- One entry of `clients` (pingTimeout is an external timer handle). -/
structure ClientRecord : Type where
  links : List (Nat × Link)
  isAlive : Bool
  boundServers : List BindKey
deriving DecidableEq

/-- One entry of `activeServers`.  `creator` models the `(ws, client)`
pair captured by the `createServer` connection handler closure of this
entry's `net.Server`: every accepted connection is handled through that
closure. -/
structure BindEntry : Type where
  clients : List Nat
  creator : Nat
deriving DecidableEq

/-- The server's module-level mutable state.  `openListeners` is a ghost
field tracking which `net.Server` listeners are currently open (listed by
their bind key); it is appended to when a `listen` succeeds and filtered
when `server.close()` runs. -/
structure ServerState : Type where
  activeServers : List (BindKey × BindEntry)
  clients : List (Nat × ClientRecord)
  activeLinkIds : List Nat
  openListeners : List BindKey
deriving DecidableEq

/-- Side effects of the server handlers.  `log` stands for one
console.log / console.error line; the message text is elided (logging is
out of scope per the spec). -/
inductive SEffect : Type
  | wsSend (ws : Nat) (bytes : List Nat)
  | socketEnd (linkId : Nat)
  | socketWrite (linkId : Nat) (bytes : List Nat)
  | listenerClose (key : BindKey)
  | wsClose (code : Nat) (reason : String)
  | log
deriving DecidableEq

def MAX_BUFFER_SIZE : Nat := 1048576

/-- The frames (as raw byte lists) sent over the control channel in an
effect list, in order. -/
def sentFrames : List SEffect → List (List Nat)
  | [] => []
  | .wsSend _ b :: rest => b :: sentFrames rest
  | _ :: rest => sentFrames rest

/-! ## BIND_ACK payloads -/

/-- The bytes of an ASCII string (equal to its UTF-8 encoding, and all
BIND_ACK payload characters are ASCII). -/
def asciiBytes (s : String) : List Nat := s.data.map Char.toNat

/-- `JSON.stringify` escaping for the characters that can occur in an
error message string. -/
def jsonEscape : List Char → List Char
  | [] => []
  | c :: cs =>
      (if c = '"' then ['\\', '"'] else if c = '\\' then ['\\', '\\'] else [c]) ++ jsonEscape cs

def jsonQuote (s : String) : String :=
  String.mk ('"' :: (jsonEscape s.data ++ ['"']))

/-- `Buffer.from(JSON.stringify(\x7bsuccess: true\x7d))`. -/
def bindOkPayload : List Nat := asciiBytes "\x7b\"success\":true\x7d"

/-- `Buffer.from(JSON.stringify(\x7bsuccess: false, error: err.message\x7d))`. -/
def bindErrPayload (msg : String) : List Nat :=
  asciiBytes ("\x7b\"success\":false,\"error\":" ++ jsonQuote msg ++ "\x7d")

/-! ## Server frame handlers (handleControlData and the socket / accept
callbacks of server.ts) -/

/-- Outcome of `server.listen(port, host, ...)`, an environment choice:
`ok` fires the listening callback, `err` fires the error handler. -/
inductive ListenResult : Type
  | ok
  | err (msg : String)
deriving DecidableEq

/-- The `type === 10` (bind) branch of `handleControlData`, together with
the `listen` / `error` callbacks of the freshly created server.
`content.readUInt16BE(0)` throws if the payload is shorter than 2 bytes. -/
def handleBind (s : ServerState) (ws : Nat) (client : ClientRecord) (linkId : Nat)
    (content : List Nat) (lr : ListenResult) : Except JsError (ServerState × List SEffect) :=
  match content with
  | p0 :: p1 :: host =>
    let port := p0 * 256 + p1
    let key : BindKey := (host, port)
    match mget s.activeServers key with
    | some entry =>
        .ok ({ s with
                activeServers := mset s.activeServers key { entry with clients := sadd entry.clients ws },
                clients := mset s.clients ws { client with boundServers := sadd client.boundServers key } },
             [.wsSend ws (encodeMessage 11 linkId bindOkPayload)])
    | none =>
      match lr with
      | .ok =>
          .ok ({ s with
                  activeServers := mset s.activeServers key { clients := [ws], creator := ws },
                  openListeners := s.openListeners ++ [key],
                  clients := mset s.clients ws { client with boundServers := sadd client.boundServers key } },
               [.log, .wsSend ws (encodeMessage 11 linkId bindOkPayload)])
      | .err m =>
          .ok (s, [.log, .wsSend ws (encodeMessage 11 linkId (bindErrPayload m))])
  | _ => .error .rangeError

/-- The `type === 0` (link_ready) branch: mark confirmed, drain the early
buffer as one DATA frame per chunk, clear it. -/
def handleOpenAck (s : ServerState) (ws : Nat) (client : ClientRecord) (linkId : Nat) :
    ServerState × List SEffect :=
  match mget client.links linkId with
  | none => (s, [])
  | some link =>
      let link' : Link := { link with confirmed := true, buffer := [], bufferSize := 0 }
      let client' : ClientRecord := { client with links := mset client.links linkId link' }
      ({ s with clients := mset s.clients ws client' },
       .log :: link.buffer.map (fun chunk => .wsSend ws (encodeMessage 2 linkId chunk)))

/-- The `type === 1` (close_link) branch. -/
def handleCloseLink (s : ServerState) (ws : Nat) (client : ClientRecord) (linkId : Nat) :
    ServerState × List SEffect :=
  match mget client.links linkId with
  | none => (s, [])
  | some _ =>
      ({ s with
          clients := mset s.clients ws { client with links := mdel client.links linkId },
          activeLinkIds := sdel s.activeLinkIds linkId },
       [.log, .socketEnd linkId])

/-- The `type === 2` (stream_data) branch. -/
def handleStreamData (s : ServerState) (ws : Nat) (linkId : Nat) (content : List Nat)
    (client : ClientRecord) : ServerState × List SEffect :=
  match mget client.links linkId with
  | some link =>
      if link.confirmed then (s, [.log, .socketWrite linkId content]) else (s, [.log])
  | none => (s, [.log])

/-- `handleControlData(ws, message)` of server.ts.  The `lr` parameter is
the environment's answer to a `server.listen` attempt (only consulted on
the bind path when no entry exists yet). -/
def handleControlData (s : ServerState) (ws : Nat) (message : List Nat) (lr : ListenResult) :
    Except JsError (ServerState × List SEffect) :=
  match mget s.clients ws with
  | none => .ok (s, [])
  | some client =>
    match decodeMessage message with
    | .error e => .error e
    | .ok (type, linkId, content) =>
      if type = 10 then handleBind s ws client linkId content lr
      else if type = 0 then .ok (handleOpenAck s ws client linkId)
      else if type = 1 then .ok (handleCloseLink s ws client linkId)
      else if type = 2 then .ok (handleStreamData s ws linkId content client)
      else .ok (s, [.log])

/-- The `createServer` connection handler body (registration of a fresh
link on the channel captured by the closure).  The fresh id produced by
`generateUniqueLinkId` is a parameter; the function records it in
`activeLinkIds` like the source does. -/
def onAccept (s : ServerState) (ws : Nat) (newLinkId : Nat) : ServerState × List SEffect :=
  match mget s.clients ws with
  | none => (s, [])
  | some client =>
      let newLink : Link := { buffer := [], confirmed := false, bufferSize := 0 }
      let client' : ClientRecord := { client with links := mset client.links newLinkId newLink }
      ({ s with
          clients := mset s.clients ws client',
          activeLinkIds := sadd s.activeLinkIds newLinkId },
       [.log, .wsSend ws (encodeMessage 0 newLinkId)])

/-- An external connection accepted on the listener bound to `key`: the
handler runs on the channel whose BIND created the listener (the closure
capture recorded in `creator`). -/
def acceptOn (s : ServerState) (key : BindKey) (newLinkId : Nat) : ServerState × List SEffect :=
  match mget s.activeServers key with
  | none => (s, [])
  | some entry => onAccept s entry.creator newLinkId

/-- The external socket `data` handler: buffer while unconfirmed (ending
the socket and dropping the link when the cumulative size passes
MAX_BUFFER_SIZE), forward as DATA once confirmed. -/
def onSocketData (s : ServerState) (ws : Nat) (linkId : Nat) (data : List Nat) :
    ServerState × List SEffect :=
  match mget s.clients ws with
  | none => (s, [])
  | some client =>
    match mget client.links linkId with
    | none => (s, [])
    | some link =>
      if link.confirmed = false then
        let link' := { link with
                        buffer := link.buffer ++ [data],
                        bufferSize := link.bufferSize + data.length }
        if link'.bufferSize > MAX_BUFFER_SIZE then
          ({ s with
              clients := mset s.clients ws { client with links := mdel client.links linkId },
              activeLinkIds := sdel s.activeLinkIds linkId },
           [.socketEnd linkId])
        else
          let client' : ClientRecord := { client with links := mset client.links linkId link' }
          ({ s with clients := mset s.clients ws client' }, [])
      else
        (s, [.wsSend ws (encodeMessage 2 linkId data)])

/-- The external socket `close` / `error` handlers. -/
def onSocketClose (s : ServerState) (ws : Nat) (linkId : Nat) : ServerState :=
  match mget s.clients ws with
  | none => s
  | some client =>
      { s with
          clients := mset s.clients ws { client with links := mdel client.links linkId },
          activeLinkIds := sdel s.activeLinkIds linkId }

/-- One iteration of the `for (const serverKey of client.boundServers)`
loop of the ws `close` handler, threading (activeServers, openListeners,
effects so far). -/
def removeOneBind (ws : Nat) (acc : List (BindKey × BindEntry) × List BindKey × List SEffect)
    (key : BindKey) : List (BindKey × BindEntry) × List BindKey × List SEffect :=
  match mget acc.1 key with
  | none => acc
  | some entry =>
    if (sdel entry.clients ws).length = 0 then
      (mdel acc.1 key, sdel acc.2.1 key, acc.2.2 ++ [.listenerClose key])
    else
      (mset acc.1 key { entry with clients := sdel entry.clients ws }, acc.2.1, acc.2.2)

/-- The ws `close` handler of server.ts: release bind participation
(closing emptied listeners), end every owned socket, drop the record. -/
def onWsClose (s : ServerState) (ws : Nat) : ServerState × List SEffect :=
  match mget s.clients ws with
  | none => ({ s with clients := mdel s.clients ws }, [])
  | some client =>
    let acc := client.boundServers.foldl (removeOneBind ws) (s.activeServers, s.openListeners, [])
    ({ activeServers := acc.1,
       openListeners := acc.2.1,
       clients := mdel s.clients ws,
       activeLinkIds := client.links.foldl (fun a p => sdel a p.1) s.activeLinkIds },
     acc.2.2 ++ client.links.map (fun p => SEffect.socketEnd p.1))

/-! ## SHA-1 (crypto.createHash("sha1") ... digest("hex"), used by the
whitelist server variant's isWhitelisted) -/

/-- Left-rotate a 32-bit word by `s` bits. -/
def rotl32 (s x : Nat) : Nat :=
  ((x <<< s) % 4294967296) ||| (x >>> (32 - s))

def not32 (x : Nat) : Nat := x ^^^ 4294967295

def sha1F (t b c d : Nat) : Nat :=
  if t < 20 then (b &&& c) ||| (not32 b &&& d)
  else if t < 40 then b ^^^ c ^^^ d
  else if t < 60 then (b &&& c) ||| (b &&& d) ||| (c &&& d)
  else b ^^^ c ^^^ d

def sha1K (t : Nat) : Nat :=
  if t < 20 then 0x5A827999
  else if t < 40 then 0x6ED9EBA1
  else if t < 60 then 0x8F1BBCDC
  else 0xCA62C1D6

/-- Split a byte list into consecutive chunks of `k + 1` bytes (the last
one possibly shorter). -/
def chunksOf (k : Nat) (l : List Nat) : List (List Nat) :=
  (List.range ((l.length + k) / (k + 1))).map (fun i => (l.drop (i * (k + 1))).take (k + 1))

def beWord (l : List Nat) : Nat :=
  fromBE32 (l.getD 0 0) (l.getD 1 0) (l.getD 2 0) (l.getD 3 0)

/-- Process one 64-byte block. -/
def sha1Block (h : Nat × Nat × Nat × Nat × Nat) (block : List Nat) :
    Nat × Nat × Nat × Nat × Nat :=
  let w0 := (chunksOf 3 block).map beWord
  let w := (List.range 64).foldl (fun w _ =>
      let n := w.length
      w ++ [rotl32 1 (w.getD (n - 3) 0 ^^^ w.getD (n - 8) 0 ^^^ w.getD (n - 14) 0 ^^^ w.getD (n - 16) 0)]) w0
  let (h0, h1, h2, h3, h4) := h
  let st := (List.range 80).foldl (fun st t =>
      let (a, b, c, d, e) := st
      let temp := (rotl32 5 a + sha1F t b c d + e + sha1K t + w.getD t 0) % 4294967296
      (temp, a, rotl32 30 b, c, d)) (h0, h1, h2, h3, h4)
  let (a, b, c, d, e) := st
  ((h0 + a) % 4294967296, (h1 + b) % 4294967296, (h2 + c) % 4294967296,
   (h3 + d) % 4294967296, (h4 + e) % 4294967296)

def toBE64 (n : Nat) : List Nat :=
  [n / 72057594037927936 % 256, n / 281474976710656 % 256, n / 1099511627776 % 256,
   n / 4294967296 % 256, n / 16777216 % 256, n / 65536 % 256, n / 256 % 256, n % 256]

/-- Merkle-Damgard padding: 0x80, zeros to 56 mod 64, 64-bit big-endian
bit length. -/
def sha1Pad (msg : List Nat) : List Nat :=
  msg ++ 0x80 :: (List.replicate ((119 - msg.length % 64) % 64) 0 ++ toBE64 (msg.length * 8))

def sha1Digest (msg : List Nat) : Nat × Nat × Nat × Nat × Nat :=
  (chunksOf 63 (sha1Pad msg)).foldl sha1Block
    (0x67452301, 0xEFCDAB89, 0x98BADCFE, 0x10325476, 0xC3D2E1F0)

/-- Lowercase hexadecimal digit. -/
def hexDigit (n : Nat) : Char :=
  if n < 10 then Char.ofNat (48 + n) else Char.ofNat (87 + n)

def toHex32 (n : Nat) : List Char :=
  (List.range 8).map (fun i => hexDigit (n / 16 ^ (7 - i) % 16))

/-- The lowercase hex SHA-1 digest of a byte sequence. -/
def sha1Hex (msg : List Nat) : String :=
  let h := sha1Digest msg
  String.mk (toHex32 h.1 ++ toHex32 h.2.1 ++ toHex32 h.2.2.1 ++ toHex32 h.2.2.2.1 ++ toHex32 h.2.2.2.2)

/-! ## Admission (whitelist server variant: isWhitelisted and the
connection handler) -/

/-- The TLS peer certificate as the admission code consumes it:
`cert.pubkey` is the DER-encoded subject public key when present. -/
structure PeerCert : Type where
  pubkey : Option (List Nat)
deriving DecidableEq

/-- `isWhitelisted(publicKey)`: SHA-1 hex digest membership in the
current `authorizedClients` snapshot. -/
def isWhitelisted (authorizedClients : List String) (publicKey : List Nat) : Bool :=
  authorizedClients.contains (sha1Hex publicKey)

/-- `clients.set(ws, \x7b links: new Map(), isAlive: true, boundServers:
new Set() \x7d)`. -/
def newClientRecord : ClientRecord :=
  { links := [], isAlive := true, boundServers := [] }

/-- The `controlServer.on("connection")` handler of the whitelist server
variant: admission checks, then registration of the client record.  The
message / close handlers are only attached on the admitted path. -/
def onConnection (s : ServerState) (ws : Nat) (authorizedClients : List String)
    (cert : Option PeerCert) : ServerState × List SEffect :=
  match cert with
  | none => (s, [.log, .wsClose 1001 "Client certificate required."])
  | some c =>
    match c.pubkey with
    | none => (s, [.log, .wsClose 1001 "Client certificate required."])
    | some publicKey =>
      if isWhitelisted authorizedClients publicKey = false then
        (s, [.log, .wsClose 1001 "Client certificate not whitelisted."])
      else
        ({ s with clients := mset s.clients ws newClientRecord }, [.log])

/-! ## Client model (client.ts) -/

/-- The client's module-level `links : Map<number, Socket>`; the socket
values are external handles, so the map is its key set. -/
structure ClientState : Type where
  links : List Nat
deriving DecidableEq

/-- Side effects of the client handlers: dialling the local destination,
writing to / reference of a local socket, sending a frame on the control
socket, console output. -/
inductive CEffect : Type
  | dialLocal (linkId : Nat)
  | localWrite (linkId : Nat) (bytes : List Nat)
  | csSend (bytes : List Nat)
  | log
deriving DecidableEq

/-- `createLocalConnection(linkId)`: starts the local dial and registers
the socket in `links` (the `links.set` on the last line runs
synchronously; the connect callback and data/close handlers are
asynchronous). -/
def createLocalConnection (cs : ClientState) (linkId : Nat) : ClientState × List CEffect :=
  ({ links := sadd cs.links linkId }, [.dialLocal linkId])

/-- `handleServerData(message)` of client.ts.  Note the branch structure:
type 0 dials, type 2 writes if the link is known, every other type except
11 is logged as unknown; there is no branch for type 1. -/
def handleServerData (cs : ClientState) (message : List Nat) :
    Except JsError (ClientState × List CEffect) :=
  match decodeMessage message with
  | .error e => .error e
  | .ok (type, linkId, content) =>
    if type = 0 then .ok (createLocalConnection cs linkId)
    else if type = 2 then
      if linkId ∈ cs.links then .ok (cs, [.localWrite linkId content]) else .ok (cs, [])
    else if type = 11 then .ok (cs, [])
    else .ok (cs, [.log])

/-- `JSON.parse(content.toString()).success` for the payloads the server
puts on the wire: exactly the success payload parses to `true`, the
failure payloads parse to `false`. -/
def parseBindSuccess (content : List Nat) : Bool :=
  content == bindOkPayload

/-- The `handleBindResponse` listener installed by `bindServer` while a
BIND is pending: `none` leaves the bind pending, `some b` resolves it
with `b`.  The decoded `linkId` is bound but never read by the source. -/
def handleBindResponse (message : List Nat) : Except JsError (Option Bool) :=
  match decodeMessage message with
  | .error e => .error e
  | .ok (type, _linkId, content) =>
    if type = 11 then .ok (some (parseBindSuccess content)) else .ok none

/-! ## Reachable server states -/

/-- The module-level state right after server start-up. -/
def initState : ServerState :=
  { activeServers := [], clients := [], activeLinkIds := [], openListeners := [] }

/-- One atomic event of the server's event loop.  `connect` admits or
rejects a fresh channel, `control` is a whole inbound frame, `accept` an
external connection on a bound listener, `sockData` / `sockClose` the
external socket callbacks, `wsClose` a channel closing. -/
inductive Step : ServerState → ServerState → Prop
  | connect (s : ServerState) (ws : Nat) (wl : List String) (cert : Option PeerCert) :
      Step s (onConnection s ws wl cert).1
  | control (s : ServerState) (ws : Nat) (msg : List Nat) (lr : ListenResult)
      (s' : ServerState) (effs : List SEffect) :
      handleControlData s ws msg lr = .ok (s', effs) → Step s s'
  | accept (s : ServerState) (key : BindKey) (lid : Nat) :
      Step s (acceptOn s key lid).1
  | sockData (s : ServerState) (ws lid : Nat) (d : List Nat) :
      Step s (onSocketData s ws lid d).1
  | sockClose (s : ServerState) (ws lid : Nat) :
      Step s (onSocketClose s ws lid)
  | wsClose (s : ServerState) (ws : Nat) :
      Step s (onWsClose s ws).1

/-- A state the running server can be in. -/
def Reachable (s : ServerState) : Prop :=
  Relation.ReflTransGen Step initState s

/-! ## Concrete fixture states for witnesses and counterexamples -/

/-- An unconfirmed link whose early buffer holds exactly 1 MiB. -/
def fullLink : Link :=
  { buffer := [List.replicate 1048576 0], confirmed := false, bufferSize := 1048576 }

def fullClient : ClientRecord :=
  { links := [(7, fullLink)], isAlive := true, boundServers := [] }

/-- A server with one channel (id 0) owning one OPENING link (id 7) whose
early buffer is at the 1 MiB cap. -/
def fullState : ServerState :=
  { activeServers := [], clients := [(0, fullClient)], activeLinkIds := [7], openListeners := [] }

/-- An unconfirmed link with two small buffered chunks. -/
def bufLink : Link :=
  { buffer := [[10, 11], [12]], confirmed := false, bufferSize := 3 }

def bufClient : ClientRecord :=
  { links := [(7, bufLink)], isAlive := true, boundServers := [] }

def bufState : ServerState :=
  { activeServers := [], clients := [(0, bufClient)], activeLinkIds := [7], openListeners := [] }

/-- A shared bind entry for key ([104], 9000) created by channel 0 and
joined by channel 1. -/
def sharedKey : BindKey := ([104], 9000)

def sharedEntry : BindEntry := { clients := [0, 1], creator := 0 }

/-- The record of a channel participating in the shared bind. -/
def sharedClient : ClientRecord := { newClientRecord with boundServers := [sharedKey] }

def sharedState : ServerState :=
  { activeServers := [(sharedKey, sharedEntry)],
    clients := [(0, sharedClient), (1, sharedClient)],
    activeLinkIds := [],
    openListeners := [sharedKey] }

/-- A state with a sole-participant bind entry, for the teardown
scenarios. -/
def soloState : ServerState :=
  { activeServers := [(sharedKey, { clients := [0], creator := 0 })],
    clients := [(0, { newClientRecord with boundServers := [sharedKey] })],
    activeLinkIds := [],
    openListeners := [sharedKey] }

/-- A server with one freshly admitted channel and nothing else. -/
def oneClientState : ServerState :=
  { activeServers := [], clients := [(0, newClientRecord)], activeLinkIds := [], openListeners := [] }

/-- A client that owns the local socket of link 5. -/
def cState5 : ClientState := { links := [5] }

/-! ## Invariants referred to by the theorems -/

/-- Every early buffer stored in the registry is within the 1 MiB cap. -/
def BufBound (s : ServerState) : Prop :=
  ∀ p ∈ s.clients, ∀ q ∈ p.2.links, q.2.bufferSize ≤ MAX_BUFFER_SIZE

/-- Every bind entry has a non-empty client set, and the open listeners
are exactly the bind entries (same keys, same order). -/
def BindInv (s : ServerState) : Prop :=
  (∀ p ∈ s.activeServers, p.2.clients ≠ []) ∧ s.openListeners = s.activeServers.map Prod.fst

/-- `BindInv` for the accumulator threaded through the bound-server loop
of the ws close handler. -/
def AccInv (acc : List (BindKey × BindEntry) × List BindKey × List SEffect) : Prop :=
  (∀ p ∈ acc.1, p.2.clients ≠ []) ∧ acc.2.1 = acc.1.map Prod.fst

/-- The state `handleOpenAck` is expected to produce on a registered
link: the link is confirmed and its early buffer is reset to empty with
cumulative size 0. -/
def drainedState (s : ServerState) (ws : Nat) (client : ClientRecord) (linkId : Nat)
    (link : Link) : ServerState :=
  let link' : Link := { link with confirmed := true, buffer := [], bufferSize := 0 }
  let client' : ClientRecord := { client with links := mset client.links linkId link' }
  { s with clients := mset s.clients ws client' }

/-- The effects `handleOpenAck` is expected to emit on a registered link:
one DATA frame per buffered chunk, in arrival order. -/
def drainEffects (ws linkId : Nat) (link : Link) : List SEffect :=
  .log :: link.buffer.map (fun chunk => .wsSend ws (encodeMessage 2 linkId chunk))

/-! ## Lemmas about the map / set operations -/

theorem mget_mem {κ α : Type} [DecidableEq κ] {m : List (κ × α)} {k : κ} {v : α}
    (h : mget m k = some v) : (k, v) ∈ m := by
  induction m with
  | nil => simp [mget] at h
  | cons p rest ih =>
    obtain ⟨k', v'⟩ := p
    simp only [mget] at h
    split at h
    · rename_i hk
      injection h with h2
      subst hk
      subst h2
      exact List.mem_cons_self _ _
    · exact List.mem_cons_of_mem _ (ih h)

theorem mem_mset {κ α : Type} [DecidableEq κ] {m : List (κ × α)} {k : κ} {v : α} {p : κ × α}
    (h : p ∈ mset m k v) : p = (k, v) ∨ p ∈ m := by
  induction m with
  | nil => simpa [mset] using h
  | cons q rest ih =>
    obtain ⟨k', v'⟩ := q
    simp only [mset] at h
    split at h
    · rcases List.mem_cons.mp h with h | h
      · exact Or.inl h
      · exact Or.inr (List.mem_cons_of_mem _ h)
    · rcases List.mem_cons.mp h with h | h
      · exact Or.inr (by simp [h])
      · rcases ih h with h' | h'
        · exact Or.inl h'
        · exact Or.inr (List.mem_cons_of_mem _ h')

theorem mem_mdel {κ α : Type} [DecidableEq κ] {m : List (κ × α)} {k : κ} {p : κ × α}
    (h : p ∈ mdel m k) : p ∈ m :=
  List.mem_of_mem_filter h

theorem mget_mset_self {κ α : Type} [DecidableEq κ] (m : List (κ × α)) (k : κ) (v : α) :
    mget (mset m k v) k = some v := by
  induction m with
  | nil => simp [mset, mget]
  | cons q rest ih =>
    obtain ⟨k', v'⟩ := q
    by_cases hk : k' = k
    · subst hk; simp [mset, mget]
    · simp [mset, mget, hk, ih]

theorem mget_mset_ne {κ α : Type} [DecidableEq κ] (m : List (κ × α)) (k k' : κ) (v : α)
    (hne : k' ≠ k) : mget (mset m k v) k' = mget m k' := by
  induction m with
  | nil => simp [mset, mget, Ne.symm hne]
  | cons q rest ih =>
    obtain ⟨k'', v''⟩ := q
    by_cases hk : k'' = k
    · subst hk
      simp [mset, mget, Ne.symm hne]
    · simp [mset, mget, hk, ih]

theorem mget_mdel_self {κ α : Type} [DecidableEq κ] (m : List (κ × α)) (k : κ) :
    mget (mdel m k) k = none := by
  induction m with
  | nil => simp [mdel, mget]
  | cons q rest ih =>
    obtain ⟨k', v'⟩ := q
    by_cases hk : k' = k
    · subst hk
      simpa [mdel, List.filter_cons] using ih
    · simpa [mdel, mget, List.filter_cons, hk] using ih

theorem mget_mdel_ne {κ α : Type} [DecidableEq κ] (m : List (κ × α)) (k k' : κ)
    (hne : k' ≠ k) : mget (mdel m k) k' = mget m k' := by
  induction m with
  | nil => simp [mdel, mget]
  | cons q rest ih =>
    obtain ⟨k'', v''⟩ := q
    by_cases hk : k'' = k
    · subst hk
      simpa [mdel, mget, List.filter_cons, Ne.symm hne] using ih
    · by_cases hk2 : k'' = k'
      · subst hk2
        simp [mdel, mget, List.filter_cons, hk]
      · simpa [mdel, mget, List.filter_cons, hk, hk2] using ih

theorem map_fst_mset_some {κ α : Type} [DecidableEq κ] (m : List (κ × α)) (k : κ) (v v' : α)
    (h : mget m k = some v') : (mset m k v).map Prod.fst = m.map Prod.fst := by
  induction m with
  | nil => simp [mget] at h
  | cons q rest ih =>
    obtain ⟨k', v''⟩ := q
    by_cases hk : k' = k
    · subst hk; simp [mset]
    · simp only [mget, if_neg hk] at h
      simp [mset, hk, ih h]

theorem map_fst_mset_none {κ α : Type} [DecidableEq κ] (m : List (κ × α)) (k : κ) (v : α)
    (h : mget m k = none) : (mset m k v).map Prod.fst = m.map Prod.fst ++ [k] := by
  induction m with
  | nil => simp [mset]
  | cons q rest ih =>
    obtain ⟨k', v''⟩ := q
    by_cases hk : k' = k
    · subst hk; simp [mget] at h
    · simp only [mget, if_neg hk] at h
      simp [mset, hk, ih h]

theorem map_fst_mdel {κ α : Type} [DecidableEq κ] (m : List (κ × α)) (k : κ) :
    (mdel m k).map Prod.fst = sdel (m.map Prod.fst) k := by
  induction m with
  | nil => simp [mdel, sdel]
  | cons q rest ih =>
    obtain ⟨k', v'⟩ := q
    by_cases hk : k' = k
    · subst hk
      simpa [mdel, sdel, List.filter_cons] using ih
    · simpa [mdel, sdel, List.filter_cons, hk] using ih

theorem sadd_ne_nil {κ : Type} [DecidableEq κ] (s : List κ) (k : κ) : sadd s k ≠ [] := by
  unfold sadd
  split
  · rename_i hmem
    intro hnil
    subst hnil
    simp at hmem
  · simp

/-! ## Lemmas about the codec and sentFrames -/

theorem decodeMessage_encodeMessage (type linkId : Nat) (content : List Nat)
    (ht : type < 4294967296) (hl : linkId < 4294967296) :
    decodeMessage (encodeMessage type linkId content) = .ok (type, linkId, content) := by
  simp only [encodeMessage, toBE32, List.cons_append, List.nil_append, decodeMessage,
    fromBE32, Except.ok.injEq, Prod.mk.injEq, and_true]
  omega

theorem decodeMessage_short (b : List Nat) (h : b.length < 8) :
    decodeMessage b = .error .rangeError := by
  rcases b with _ | ⟨x0, _ | ⟨x1, _ | ⟨x2, _ | ⟨x3, _ | ⟨x4, _ | ⟨x5, _ | ⟨x6, _ | ⟨x7, rest⟩⟩⟩⟩⟩⟩⟩⟩ <;>
    first
      | rfl
      | (simp at h; omega)

theorem sentFrames_append (a b : List SEffect) :
    sentFrames (a ++ b) = sentFrames a ++ sentFrames b := by
  induction a with
  | nil => rfl
  | cons e rest ih => cases e <;> simp [sentFrames, ih]

theorem sentFrames_map_wsSend (ws : Nat) (f : List Nat → List Nat) (l : List (List Nat)) :
    sentFrames (l.map (fun b => SEffect.wsSend ws (f b))) = l.map f := by
  induction l with
  | nil => rfl
  | cons b rest ih => simp [sentFrames, ih]

/-! ## Preservation of the bind-registry invariant -/

theorem bindInv_of_fields (s s' : ServerState) (h1 : s'.activeServers = s.activeServers)
    (h2 : s'.openListeners = s.openListeners) (hI : BindInv s) : BindInv s' := by
  unfold BindInv at *
  rw [h1, h2]
  exact hI

theorem handleOpenAck_fields (s : ServerState) (ws : Nat) (client : ClientRecord) (lid : Nat) :
    (handleOpenAck s ws client lid).1.activeServers = s.activeServers ∧
    (handleOpenAck s ws client lid).1.openListeners = s.openListeners := by
  unfold handleOpenAck
  cases mget client.links lid <;> simp

theorem handleCloseLink_fields (s : ServerState) (ws : Nat) (client : ClientRecord) (lid : Nat) :
    (handleCloseLink s ws client lid).1.activeServers = s.activeServers ∧
    (handleCloseLink s ws client lid).1.openListeners = s.openListeners := by
  unfold handleCloseLink
  cases mget client.links lid <;> simp

theorem handleStreamData_fields (s : ServerState) (ws lid : Nat) (content : List Nat)
    (client : ClientRecord) :
    (handleStreamData s ws lid content client).1.activeServers = s.activeServers ∧
    (handleStreamData s ws lid content client).1.openListeners = s.openListeners := by
  rcases hl : mget client.links lid with _ | link
  · simp [handleStreamData, hl]
  · by_cases hcf : link.confirmed <;> simp [handleStreamData, hl, hcf]

theorem onAccept_fields (s : ServerState) (ws lid : Nat) :
    (onAccept s ws lid).1.activeServers = s.activeServers ∧
    (onAccept s ws lid).1.openListeners = s.openListeners := by
  unfold onAccept
  cases mget s.clients ws <;> simp

theorem acceptOn_fields (s : ServerState) (key : BindKey) (lid : Nat) :
    (acceptOn s key lid).1.activeServers = s.activeServers ∧
    (acceptOn s key lid).1.openListeners = s.openListeners := by
  unfold acceptOn
  rcases mget s.activeServers key with _ | entry
  · simp
  · exact onAccept_fields s entry.creator lid

theorem onSocketData_fields (s : ServerState) (ws lid : Nat) (d : List Nat) :
    (onSocketData s ws lid d).1.activeServers = s.activeServers ∧
    (onSocketData s ws lid d).1.openListeners = s.openListeners := by
  rcases hc : mget s.clients ws with _ | client
  · simp [onSocketData, hc]
  · rcases hl : mget client.links lid with _ | link
    · simp [onSocketData, hc, hl]
    · by_cases hcf : link.confirmed = false
      · by_cases hov : link.bufferSize + d.length > MAX_BUFFER_SIZE <;>
          simp [onSocketData, hc, hl, hcf, hov]
      · simp [onSocketData, hc, hl, hcf]

theorem onSocketClose_fields (s : ServerState) (ws lid : Nat) :
    (onSocketClose s ws lid).activeServers = s.activeServers ∧
    (onSocketClose s ws lid).openListeners = s.openListeners := by
  unfold onSocketClose
  cases mget s.clients ws <;> simp

theorem onConnection_fields (s : ServerState) (ws : Nat) (wl : List String)
    (cert : Option PeerCert) :
    (onConnection s ws wl cert).1.activeServers = s.activeServers ∧
    (onConnection s ws wl cert).1.openListeners = s.openListeners := by
  unfold onConnection
  rcases cert with _ | ⟨_ | pk⟩
  · simp
  · simp
  · by_cases hw : isWhitelisted wl pk = false <;> simp [hw]

theorem bindInv_handleBind (s : ServerState) (ws : Nat) (client : ClientRecord) (lid : Nat)
    (content : List Nat) (lr : ListenResult) (s' : ServerState) (effs : List SEffect)
    (h : handleBind s ws client lid content lr = .ok (s', effs)) (hI : BindInv s) : BindInv s' := by
  rcases content with _ | ⟨p0, _ | ⟨p1, host⟩⟩
  · exact absurd h (by simp [handleBind])
  · exact absurd h (by simp [handleBind])
  · rcases hg : mget s.activeServers (host, p0 * 256 + p1) with _ | entry
    · rcases lr with _ | m
      · simp only [handleBind, hg, Except.ok.injEq, Prod.mk.injEq] at h
        obtain ⟨h1, h2⟩ := h
        rw [← h1]
        constructor
        · intro p hp
          rcases mem_mset hp with rfl | hp'
          · simp
          · exact hI.1 _ hp'
        · show s.openListeners ++ [(host, p0 * 256 + p1)] = _
          rw [map_fst_mset_none _ _ _ hg, hI.2]
      · simp only [handleBind, hg, Except.ok.injEq, Prod.mk.injEq] at h
        obtain ⟨h1, h2⟩ := h
        rw [← h1]
        exact hI
    · simp only [handleBind, hg, Except.ok.injEq, Prod.mk.injEq] at h
      obtain ⟨h1, h2⟩ := h
      rw [← h1]
      constructor
      · intro p hp
        rcases mem_mset hp with rfl | hp'
        · exact sadd_ne_nil _ _
        · exact hI.1 _ hp'
      · show s.openListeners = _
        rw [map_fst_mset_some _ _ _ entry hg]
        exact hI.2

theorem bindInv_handleControlData (s : ServerState) (ws : Nat) (msg : List Nat)
    (lr : ListenResult) (s' : ServerState) (effs : List SEffect)
    (h : handleControlData s ws msg lr = .ok (s', effs)) (hI : BindInv s) : BindInv s' := by
  rcases hc : mget s.clients ws with _ | client
  · simp only [handleControlData, hc, Except.ok.injEq, Prod.mk.injEq] at h
    obtain ⟨h1, h2⟩ := h
    rw [← h1]
    exact hI
  · rcases hd : decodeMessage msg with e | ⟨type, lid, content⟩
    · simp only [handleControlData, hc, hd] at h
      exact Except.noConfusion h
    · simp only [handleControlData, hc, hd] at h
      split_ifs at h with h10 h0 h1t h2t
      · exact bindInv_handleBind _ _ _ _ _ _ _ _ h hI
      · simp only [Except.ok.injEq] at h
        have hfst : (handleOpenAck s ws client lid).1 = s' := by rw [h]
        rw [← hfst]
        exact bindInv_of_fields _ _ (handleOpenAck_fields s ws client lid).1
          (handleOpenAck_fields s ws client lid).2 hI
      · simp only [Except.ok.injEq] at h
        have hfst : (handleCloseLink s ws client lid).1 = s' := by rw [h]
        rw [← hfst]
        exact bindInv_of_fields _ _ (handleCloseLink_fields s ws client lid).1
          (handleCloseLink_fields s ws client lid).2 hI
      · simp only [Except.ok.injEq] at h
        have hfst : (handleStreamData s ws lid content client).1 = s' := by rw [h]
        rw [← hfst]
        exact bindInv_of_fields _ _ (handleStreamData_fields s ws lid content client).1
          (handleStreamData_fields s ws lid content client).2 hI
      · simp only [Except.ok.injEq, Prod.mk.injEq] at h
        obtain ⟨h1, h2⟩ := h
        rw [← h1]
        exact hI

theorem accInv_removeOneBind (ws : Nat)
    (acc : List (BindKey × BindEntry) × List BindKey × List SEffect) (key : BindKey)
    (h : AccInv acc) : AccInv (removeOneBind ws acc key) := by
  rcases hg : mget acc.1 key with _ | entry
  · simpa [removeOneBind, hg] using h
  · by_cases hz : (sdel entry.clients ws).length = 0
    · simp only [removeOneBind, hg, if_pos hz]
      constructor
      · intro p hp
        exact h.1 _ (mem_mdel hp)
      · show sdel acc.2.1 key = _
        rw [map_fst_mdel, h.2]
    · simp only [removeOneBind, hg, if_neg hz]
      constructor
      · intro p hp
        rcases mem_mset hp with rfl | hp'
        · intro hnil
          exact hz (List.length_eq_zero.mpr hnil)
        · exact h.1 _ hp'
      · show acc.2.1 = _
        rw [map_fst_mset_some _ _ _ entry hg]
        exact h.2

theorem accInv_foldl (ws : Nat) (keys : List BindKey) :
    ∀ acc, AccInv acc → AccInv (keys.foldl (removeOneBind ws) acc) := by
  induction keys with
  | nil => intro acc h; exact h
  | cons k rest ih => intro acc h; exact ih _ (accInv_removeOneBind ws acc k h)

theorem bindInv_onWsClose (s : ServerState) (ws : Nat) (hI : BindInv s) :
    BindInv (onWsClose s ws).1 := by
  rcases hc : mget s.clients ws with _ | client
  · simp only [onWsClose, hc]
    exact bindInv_of_fields _ _ rfl rfl hI
  · simp only [onWsClose, hc]
    have hacc := accInv_foldl ws client.boundServers (s.activeServers, s.openListeners, [])
      ⟨hI.1, hI.2⟩
    exact ⟨hacc.1, hacc.2⟩

theorem bindInv_step (s s' : ServerState) (h : Step s s') (hI : BindInv s) : BindInv s' := by
  cases h with
  | connect ws wl cert =>
      exact bindInv_of_fields _ _ (onConnection_fields s ws wl cert).1
        (onConnection_fields s ws wl cert).2 hI
  | control ws msg lr s' effs hctl => exact bindInv_handleControlData _ _ _ _ _ _ hctl hI
  | accept key lid =>
      exact bindInv_of_fields _ _ (acceptOn_fields s key lid).1 (acceptOn_fields s key lid).2 hI
  | sockData ws lid d =>
      exact bindInv_of_fields _ _ (onSocketData_fields s ws lid d).1
        (onSocketData_fields s ws lid d).2 hI
  | sockClose ws lid =>
      exact bindInv_of_fields _ _ (onSocketClose_fields s ws lid).1
        (onSocketClose_fields s ws lid).2 hI
  | wsClose ws => exact bindInv_onWsClose s ws hI

theorem reachable_bindInv (s : ServerState) (h : Reachable s) : BindInv s := by
  unfold Reachable at h
  induction h with
  | refl => exact ⟨by intro p hp; simp [initState] at hp, by simp [initState]⟩
  | tail _ hbc ih => exact bindInv_step _ _ hbc ih

/-! ## Removal of a bind key by the ws close loop -/

theorem removeOneBind_mget_of_ne (ws : Nat)
    (acc : List (BindKey × BindEntry) × List BindKey × List SEffect) (k k' : BindKey)
    (hne : k ≠ k') : mget (removeOneBind ws acc k').1 k = mget acc.1 k := by
  rcases hg : mget acc.1 k' with _ | entry
  · simp [removeOneBind, hg]
  · by_cases hz : (sdel entry.clients ws).length = 0
    · simp only [removeOneBind, hg, if_pos hz]
      exact mget_mdel_ne _ _ _ hne
    · simp only [removeOneBind, hg, if_neg hz]
      exact mget_mset_ne _ _ _ _ hne

theorem removeOneBind_mget_none (ws : Nat)
    (acc : List (BindKey × BindEntry) × List BindKey × List SEffect) (k : BindKey)
    (h : mget acc.1 k = none) (k' : BindKey) : mget (removeOneBind ws acc k').1 k = none := by
  by_cases hne : k = k'
  · subst hne
    simp only [removeOneBind, h]
  · rw [removeOneBind_mget_of_ne ws acc k k' hne]
    exact h

theorem removeOneBind_effects_mono (ws : Nat)
    (acc : List (BindKey × BindEntry) × List BindKey × List SEffect) (k' : BindKey)
    (e : SEffect) (h : e ∈ acc.2.2) : e ∈ (removeOneBind ws acc k').2.2 := by
  rcases hg : mget acc.1 k' with _ | entry
  · simpa [removeOneBind, hg] using h
  · by_cases hz : (sdel entry.clients ws).length = 0
    · simp only [removeOneBind, hg, if_pos hz]
      exact List.mem_append_left _ h
    · simp only [removeOneBind, hg, if_neg hz]
      exact h

theorem foldl_removeOneBind_none (ws : Nat) (k : BindKey) (keys : List BindKey) :
    ∀ acc, mget acc.1 k = none → mget ((keys.foldl (removeOneBind ws) acc)).1 k = none := by
  induction keys with
  | nil => intro acc h; exact h
  | cons k' rest ih => intro acc h; exact ih _ (removeOneBind_mget_none ws acc k h k')

theorem foldl_removeOneBind_effects (ws : Nat) (e : SEffect) (keys : List BindKey) :
    ∀ acc, e ∈ acc.2.2 → e ∈ ((keys.foldl (removeOneBind ws) acc)).2.2 := by
  induction keys with
  | nil => intro acc h; exact h
  | cons k' rest ih => intro acc h; exact ih _ (removeOneBind_effects_mono ws acc k' e h)

theorem foldl_removeOneBind_removes (ws : Nat) (k : BindKey) (keys : List BindKey) :
    ∀ acc entry, mget acc.1 k = some entry → sdel entry.clients ws = [] → k ∈ keys →
      mget ((keys.foldl (removeOneBind ws) acc)).1 k = none ∧
      SEffect.listenerClose k ∈ ((keys.foldl (removeOneBind ws) acc)).2.2 := by
  induction keys with
  | nil => intro acc entry _ _ hk; cases hk
  | cons k' rest ih =>
    intro acc entry hg hz hk
    by_cases hkk : k = k'
    · subst hkk
      have hstep : removeOneBind ws acc k =
          (mdel acc.1 k, sdel acc.2.1 k, acc.2.2 ++ [.listenerClose k]) := by
        simp [removeOneBind, hg, hz]
      constructor
      · have hnone : mget (removeOneBind ws acc k).1 k = none := by
          rw [hstep]
          exact mget_mdel_self _ _
        exact foldl_removeOneBind_none ws k rest _ hnone
      · have hmem : SEffect.listenerClose k ∈ (removeOneBind ws acc k).2.2 := by
          rw [hstep]
          exact List.mem_append_right _ (by simp)
        exact foldl_removeOneBind_effects ws _ rest _ hmem
    · have hk' : k ∈ rest := by
        rcases List.mem_cons.mp hk with h | h
        · exact absurd h hkk
        · exact h
      have hg' : mget (removeOneBind ws acc k').1 k = some entry := by
        rw [removeOneBind_mget_of_ne ws acc k k' hkk]
        exact hg
      exact ih _ entry hg' hz hk'

set_option maxRecDepth 10000

/-- The SHA-1 embedding agrees with the standard test vector for the
empty message. -/
theorem sha1Hex_nil : sha1Hex [] = "da39a3ee5e6b4b0d3255bfef95601890afd80709" := by decide

/-- The SHA-1 embedding agrees with the standard test vector for "abc". -/
theorem sha1Hex_abc :
    sha1Hex (asciiBytes "abc") = "a9993e364706816aba3e25717850c26c9cd0d89d" := by decide

/-- C8: encodeMessage(type, linkId, payload) is the 4-byte big-endian
encoding of type, then the 4-byte big-endian encoding of linkId, then the
payload, so its length is 8 + |payload|; decodeMessage recovers exactly
(type, linkId, payload). -/
theorem C8_codec_roundtrip (type linkId : Nat) (content : List Nat)
    (ht : type < 4294967296) (hl : linkId < 4294967296) :
    encodeMessage type linkId content =
      type / 16777216 % 256 :: type / 65536 % 256 :: type / 256 % 256 :: type % 256 ::
      linkId / 16777216 % 256 :: linkId / 65536 % 256 :: linkId / 256 % 256 :: linkId % 256 ::
      content ∧
    (encodeMessage type linkId content).length = 8 + content.length ∧
    decodeMessage (encodeMessage type linkId content) = .ok (type, linkId, content) := by
  refine ⟨by simp [encodeMessage, toBE32], ?_, decodeMessage_encodeMessage _ _ _ ht hl⟩
  simp [encodeMessage, toBE32]
  omega

/-- C8 witness: the roundtrip at a concrete frame. -/
theorem C8_witness :
    (3 : Nat) < 4294967296 ∧ (5 : Nat) < 4294967296 ∧
    decodeMessage (encodeMessage 3 5 [9, 10]) = .ok (3, 5, [9, 10]) :=
  ⟨by norm_num, by norm_num, (C8_codec_roundtrip 3 5 [9, 10] (by norm_num) (by norm_num)).2.2⟩

/-- C7 counterexample: a 3-byte inbound frame on a channel with a live
registry makes the message handler throw (RangeError) instead of being
logged and dropped with the channel surviving: nothing in the source
catches the decode failure. -/
theorem C7_counterexample :
    ([1, 2, 3] : List Nat).length < 8 ∧
    handleControlData bufState 0 [1, 2, 3] ListenResult.ok = .error .rangeError :=
  ⟨by norm_num, rfl⟩

/-- C7 (amended): decode of any input shorter than 8 bytes fails with a
RangeError, and that error propagates out of both message handlers
uncaught (the frame is not logged-and-dropped; the channel does not
survive in-model).  Frames of unknown type, by contrast, are logged and
dropped with the state unchanged. -/
theorem C7_malformed_handling :
    (∀ b : List Nat, b.length < 8 → decodeMessage b = .error .rangeError) ∧
    (∀ (s : ServerState) (ws : Nat) (c : ClientRecord) (msg : List Nat) (lr : ListenResult),
        mget s.clients ws = some c → msg.length < 8 →
        handleControlData s ws msg lr = .error .rangeError) ∧
    (∀ (cs : ClientState) (msg : List Nat), msg.length < 8 →
        handleServerData cs msg = .error .rangeError) ∧
    (∀ (s : ServerState) (ws : Nat) (c : ClientRecord) (t lid : Nat) (p : List Nat)
        (lr : ListenResult), mget s.clients ws = some c →
        t < 4294967296 → lid < 4294967296 → t ≠ 0 → t ≠ 1 → t ≠ 2 → t ≠ 10 → t ≠ 11 →
        handleControlData s ws (encodeMessage t lid p) lr = .ok (s, [.log])) := by
  refine ⟨decodeMessage_short, ?_, ?_, ?_⟩
  · intro s ws c msg lr hc hlen
    simp [handleControlData, hc, decodeMessage_short msg hlen]
  · intro cs msg hlen
    simp [handleServerData, decodeMessage_short msg hlen]
  · intro s ws c t lid p lr hc ht hl h0 h1 h2 h10 h11
    simp [handleControlData, hc, decodeMessage_encodeMessage t lid p ht hl, h0, h1, h2, h10, h11]

/-- C7 witness: the amended behavior at concrete inputs. -/
theorem C7_witness :
    mget oneClientState.clients 0 = some newClientRecord ∧
    ([9] : List Nat).length < 8 ∧
    handleControlData oneClientState 0 [9] ListenResult.ok = .error .rangeError ∧
    handleServerData cState5 [9] = .error .rangeError ∧
    handleControlData oneClientState 0 (encodeMessage 99 0 []) ListenResult.ok =
      .ok (oneClientState, [.log]) := by
  refine ⟨rfl, by norm_num, ?_, ?_, ?_⟩
  · exact C7_malformed_handling.2.1 _ _ newClientRecord _ _ rfl (by norm_num)
  · exact C7_malformed_handling.2.2.1 _ _ (by norm_num)
  · exact C7_malformed_handling.2.2.2 _ _ newClientRecord 99 0 [] _ rfl (by norm_num)
      (by norm_num) (by norm_num) (by norm_num) (by norm_num) (by norm_num) (by norm_num)

/-- C3 counterexample: the client, owning the local socket of link 5,
receives CLOSE(5) from the server and neither ends the socket nor removes
the registry entry: the frame falls into the unknown-type branch (one
console line) and the links map is unchanged. -/
theorem C3_counterexample :
    (5 : Nat) ∈ cState5.links ∧
    handleServerData cState5 (encodeMessage 1 5 []) = .ok (cState5, [CEffect.log]) :=
  ⟨by decide, rfl⟩

/-- C3 (amended): the server handles a client CLOSE as the claim states
(registered: end the socket, drop the registry entry, release the id, no
frame emitted in response; unregistered: harmless no-op), but the client
has no CLOSE branch at all: a server CLOSE is logged as an unknown type
and the client's registry is untouched. -/
theorem C3_close_semantics :
    (∀ (s : ServerState) (ws : Nat) (client : ClientRecord) (lid : Nat) (link : Link)
        (lr : ListenResult), mget s.clients ws = some client →
        mget client.links lid = some link → lid < 4294967296 →
        handleControlData s ws (encodeMessage 1 lid []) lr =
          .ok ({ s with clients := mset s.clients ws { client with links := mdel client.links lid },
                        activeLinkIds := sdel s.activeLinkIds lid },
               [.log, .socketEnd lid])) ∧
    (∀ (s : ServerState) (ws : Nat) (client : ClientRecord) (lid : Nat) (lr : ListenResult),
        mget s.clients ws = some client → mget client.links lid = none → lid < 4294967296 →
        handleControlData s ws (encodeMessage 1 lid []) lr = .ok (s, [])) ∧
    (∀ (cs : ClientState) (lid : Nat), lid < 4294967296 →
        handleServerData cs (encodeMessage 1 lid []) = .ok (cs, [CEffect.log])) := by
  refine ⟨?_, ?_, ?_⟩
  · intro s ws client lid link lr hc hl hlid
    simp [handleControlData, hc, decodeMessage_encodeMessage 1 lid [] (by norm_num) hlid,
      handleCloseLink, hl]
  · intro s ws client lid lr hc hl hlid
    simp [handleControlData, hc, decodeMessage_encodeMessage 1 lid [] (by norm_num) hlid,
      handleCloseLink, hl]
  · intro cs lid hlid
    simp [handleServerData, decodeMessage_encodeMessage 1 lid [] (by norm_num) hlid]

/-- C3 witness: the amended behavior at concrete inputs. -/
theorem C3_witness :
    mget bufState.clients 0 = some bufClient ∧ mget bufClient.links 7 = some bufLink ∧
    handleControlData bufState 0 (encodeMessage 1 7 []) ListenResult.ok =
      .ok ({ bufState with clients := mset bufState.clients 0 { bufClient with links := mdel bufClient.links 7 },
                           activeLinkIds := sdel bufState.activeLinkIds 7 },
           [.log, .socketEnd 7]) ∧
    mget bufClient.links 8 = none ∧
    handleControlData bufState 0 (encodeMessage 1 8 []) ListenResult.ok = .ok (bufState, []) ∧
    handleServerData cState5 (encodeMessage 1 5 []) = .ok (cState5, [CEffect.log]) := by
  refine ⟨rfl, rfl, ?_, rfl, ?_, ?_⟩
  · exact C3_close_semantics.1 _ _ _ _ bufLink _ rfl rfl (by norm_num)
  · exact C3_close_semantics.2.1 _ _ bufClient _ _ rfl rfl (by norm_num)
  · exact C3_close_semantics.2.2 _ _ (by norm_num)

/-- C10: while a BIND is pending, the client's response handler resolves
on a frame of type 11 with an outcome that is a function of the payload
alone: it is identical for any two link ids (in particular for a link id
different from the one randomly chosen for the BIND request), and frames
of any other type leave the bind pending. -/
theorem C10_bind_ack_matching :
    (∀ (lidA lidB : Nat) (p : List Nat),
        handleBindResponse (encodeMessage 11 lidA p) =
          handleBindResponse (encodeMessage 11 lidB p)) ∧
    (∀ (lid : Nat) (p : List Nat),
        handleBindResponse (encodeMessage 11 lid p) = .ok (some (parseBindSuccess p))) ∧
    (∀ (t lid : Nat) (p : List Nat), t < 4294967296 → lid < 4294967296 → t ≠ 11 →
        handleBindResponse (encodeMessage t lid p) = .ok none) ∧
    parseBindSuccess bindOkPayload = true ∧
    parseBindSuccess (bindErrPayload "EADDRINUSE") = false := by
  refine ⟨?_, ?_, ?_, by decide, by decide⟩
  · intro lidA lidB p
    simp [handleBindResponse, encodeMessage, toBE32, decodeMessage, fromBE32]
  · intro lid p
    simp [handleBindResponse, encodeMessage, toBE32, decodeMessage, fromBE32]
  · intro t lid p ht hl h11
    simp [handleBindResponse, decodeMessage_encodeMessage t lid p ht hl, h11]

/-- C1 counterexample: on an OPENING link whose buffer holds 1 MiB, one
more byte makes the server end the external socket and drop the registry
entry, but no CLOSE frame (nor any frame) is emitted for the link: the
effect list is exactly the socket end. -/
theorem C1_counterexample :
    fullLink.bufferSize + ([1] : List Nat).length > MAX_BUFFER_SIZE ∧
    (onSocketData fullState 0 7 [1]).2 = [SEffect.socketEnd 7] ∧
    SEffect.wsSend 0 (encodeMessage 1 7 []) ∉ (onSocketData fullState 0 7 [1]).2 ∧
    (onSocketData fullState 0 7 [1]).1.clients = [(0, { fullClient with links := [] })] := by
  refine ⟨by norm_num [fullLink, MAX_BUFFER_SIZE], rfl, ?_, rfl⟩
  rw [show (onSocketData fullState 0 7 [1]).2 = [SEffect.socketEnd 7] from rfl]
  decide

/-- C1 (amended): when a chunk would push an OPENING link's buffer past
1 MiB the server ends the external socket and removes the registry entry
(releasing the link id) with no frame emitted at all — in particular no
CLOSE; a data event for a removed link does nothing, so no DATA for the
link is emitted afterwards; and the registered buffer sizes never exceed
1 MiB. -/
theorem C1_overflow_close :
    (∀ (s : ServerState) (ws : Nat) (client : ClientRecord) (lid : Nat) (link : Link)
        (d : List Nat), mget s.clients ws = some client → mget client.links lid = some link →
        link.confirmed = false → link.bufferSize + d.length > MAX_BUFFER_SIZE →
        onSocketData s ws lid d =
          ({ s with clients := mset s.clients ws { client with links := mdel client.links lid },
                    activeLinkIds := sdel s.activeLinkIds lid },
           [SEffect.socketEnd lid])) ∧
    (∀ (s : ServerState) (ws : Nat) (client : ClientRecord) (lid : Nat) (d : List Nat),
        mget s.clients ws = some client → mget client.links lid = none →
        onSocketData s ws lid d = (s, [])) ∧
    (∀ (s : ServerState) (ws : Nat) (lid : Nat) (d : List Nat),
        BufBound s → BufBound (onSocketData s ws lid d).1) := by
  refine ⟨?_, ?_, ?_⟩
  · intro s ws client lid link d hc hl hconf hov
    simp [onSocketData, hc, hl, hconf, hov]
  · intro s ws client lid d hc hl
    simp [onSocketData, hc, hl]
  · intro s ws lid d hB
    rcases hc : mget s.clients ws with _ | client
    · simpa [onSocketData, hc] using hB
    · rcases hl : mget client.links lid with _ | link
      · simpa [onSocketData, hc, hl] using hB
      · by_cases hconf : link.confirmed = false
        · by_cases hov : link.bufferSize + d.length > MAX_BUFFER_SIZE
          · simp only [onSocketData, hc, hl, hconf, hov]
            simp only [if_true, if_pos hov]
            intro p hp q hq
            rcases mem_mset hp with rfl | hp'
            · exact hB _ (mget_mem hc) _ (mem_mdel hq)
            · exact hB _ hp' _ hq
          · simp only [onSocketData, hc, hl, hconf, hov]
            simp only [if_true, if_neg hov]
            intro p hp q hq
            rcases mem_mset hp with rfl | hp'
            · rcases mem_mset hq with rfl | hq'
              · simpa using Nat.le_of_not_lt hov
              · exact hB _ (mget_mem hc) _ hq'
            · exact hB _ hp' _ hq
        · simpa [onSocketData, hc, hl, hconf] using hB

/-- C1 witness: the amended behavior at concrete inputs. -/
theorem C1_witness :
    mget fullState.clients 0 = some fullClient ∧
    mget fullClient.links 7 = some fullLink ∧
    fullLink.confirmed = false ∧
    fullLink.bufferSize + ([1] : List Nat).length > MAX_BUFFER_SIZE ∧
    onSocketData fullState 0 7 [1] =
      ({ fullState with clients := mset fullState.clients 0 { fullClient with links := mdel fullClient.links 7 },
                        activeLinkIds := sdel fullState.activeLinkIds 7 },
       [SEffect.socketEnd 7]) ∧
    mget bufClient.links 9 = none ∧
    onSocketData bufState 0 9 [1] = (bufState, []) ∧
    BufBound bufState ∧ BufBound (onSocketData bufState 0 9 [1]).1 := by
  refine ⟨rfl, rfl, rfl, by norm_num [fullLink, MAX_BUFFER_SIZE], ?_, rfl, ?_,
    by unfold BufBound; decide, ?_⟩
  · exact C1_overflow_close.1 _ _ _ _ fullLink _ rfl rfl rfl
      (by norm_num [fullLink, MAX_BUFFER_SIZE])
  · exact C1_overflow_close.2.1 _ _ bufClient _ _ rfl rfl
  · exact C1_overflow_close.2.2 bufState 0 9 [1] (by unfold BufBound; decide)

/-- C2: a client OPEN (type 0) for a registered link sets the confirmed
flag, emits exactly one DATA(link_id, chunk) frame per buffered chunk in
arrival order, resets the buffer to empty with cumulative size 0, and
local data arriving afterwards is sent as DATA strictly after the whole
drain. -/
theorem C2_open_ack_drain (s : ServerState) (ws : Nat) (client : ClientRecord) (lid : Nat)
    (link : Link) (d : List Nat) (lr : ListenResult)
    (hc : mget s.clients ws = some client) (hl : mget client.links lid = some link)
    (hlid : lid < 4294967296) :
    handleControlData s ws (encodeMessage 0 lid []) lr =
      .ok (drainedState s ws client lid link, drainEffects ws lid link) ∧
    sentFrames (drainEffects ws lid link) =
      link.buffer.map (fun chunk => encodeMessage 2 lid chunk) ∧
    mget (drainedState s ws client lid link).clients ws =
      some { client with links := mset client.links lid { link with confirmed := true, buffer := [], bufferSize := 0 } } ∧
    (onSocketData (drainedState s ws client lid link) ws lid d).2 =
      [SEffect.wsSend ws (encodeMessage 2 lid d)] ∧
    sentFrames (drainEffects ws lid link ++ (onSocketData (drainedState s ws client lid link) ws lid d).2) =
      link.buffer.map (fun chunk => encodeMessage 2 lid chunk) ++ [encodeMessage 2 lid d] := by
  have hdec := decodeMessage_encodeMessage 0 lid [] (by norm_num) hlid
  have h2 : sentFrames (drainEffects ws lid link) =
      link.buffer.map (fun chunk => encodeMessage 2 lid chunk) := by
    simp [drainEffects, sentFrames, sentFrames_map_wsSend]
  have h4 : (onSocketData (drainedState s ws client lid link) ws lid d).2 =
      [SEffect.wsSend ws (encodeMessage 2 lid d)] := by
    simp [onSocketData, drainedState, mget_mset_self]
  refine ⟨?_, h2, ?_, h4, ?_⟩
  · simp [handleControlData, hc, hdec, handleOpenAck, hl, drainedState, drainEffects]
  · simp [drainedState, mget_mset_self]
  · rw [sentFrames_append, h2, h4]
    rfl

/-- C2 witness: draining a concrete two-chunk buffer. -/
theorem C2_witness :
    mget bufState.clients 0 = some bufClient ∧ mget bufClient.links 7 = some bufLink ∧
    handleControlData bufState 0 (encodeMessage 0 7 []) ListenResult.ok =
      .ok (drainedState bufState 0 bufClient 7 bufLink, drainEffects 0 7 bufLink) ∧
    sentFrames (drainEffects 0 7 bufLink) = [encodeMessage 2 7 [10, 11], encodeMessage 2 7 [12]] := by
  refine ⟨rfl, rfl,
    (C2_open_ack_drain bufState 0 bufClient 7 bufLink [9] ListenResult.ok rfl rfl (by norm_num)).1, ?_⟩
  rw [(C2_open_ack_drain bufState 0 bufClient 7 bufLink [9] ListenResult.ok rfl rfl (by norm_num)).2.1]
  rfl

/-- C4: a BIND for an existing key adds the requester to the entry's
client set, records the key in the channel's bind set and acks success;
for a fresh key a successful listen stores an entry whose client set is
exactly the requester and acks success; a failed listen acks
success:false with the error message and creates no entry; all three acks
carry the link id of the request. -/
theorem C4_bind_handling (s : ServerState) (ws : Nat) (client : ClientRecord) (lid port : Nat)
    (host : List Nat) (m : String)
    (hc : mget s.clients ws = some client) (hlid : lid < 4294967296) (hport : port < 65536) :
    (∀ entry, mget s.activeServers (host, port) = some entry →
      ∀ lr, handleControlData s ws (encodeMessage 10 lid (toBE16 port ++ host)) lr =
        .ok ({ s with activeServers := mset s.activeServers (host, port) { entry with clients := sadd entry.clients ws },
                      clients := mset s.clients ws { client with boundServers := sadd client.boundServers (host, port) } },
             [.wsSend ws (encodeMessage 11 lid bindOkPayload)])) ∧
    (mget s.activeServers (host, port) = none →
      handleControlData s ws (encodeMessage 10 lid (toBE16 port ++ host)) ListenResult.ok =
        .ok ({ s with activeServers := mset s.activeServers (host, port) { clients := [ws], creator := ws },
                      openListeners := s.openListeners ++ [(host, port)],
                      clients := mset s.clients ws { client with boundServers := sadd client.boundServers (host, port) } },
             [.log, .wsSend ws (encodeMessage 11 lid bindOkPayload)])) ∧
    (mget s.activeServers (host, port) = none →
      handleControlData s ws (encodeMessage 10 lid (toBE16 port ++ host)) (ListenResult.err m) =
        .ok (s, [.log, .wsSend ws (encodeMessage 11 lid (bindErrPayload m))])) := by
  have hdec : decodeMessage (encodeMessage 10 lid (port / 256 % 256 :: port % 256 :: host)) =
      .ok (10, lid, port / 256 % 256 :: port % 256 :: host) := by
    simpa [toBE16] using
      decodeMessage_encodeMessage 10 lid (toBE16 port ++ host) (by norm_num) hlid
  have hp : port / 256 % 256 * 256 + port % 256 = port := by omega
  refine ⟨?_, ?_, ?_⟩
  · intro entry hentry lr
    simp [handleControlData, hc, toBE16, hdec, handleBind, hp, hentry]
  · intro hnone
    simp [handleControlData, hc, toBE16, hdec, handleBind, hp, hnone]
  · intro hnone
    simp [handleControlData, hc, toBE16, hdec, handleBind, hp, hnone]

/-- C4 witness: the three bind outcomes at concrete inputs. -/
theorem C4_witness :
    mget sharedState.clients 1 = some sharedClient ∧
    mget sharedState.activeServers ([104], 9000) = some sharedEntry ∧
    handleControlData sharedState 1 (encodeMessage 10 42 (toBE16 9000 ++ [104])) ListenResult.ok =
      .ok ({ sharedState with
              activeServers := mset sharedState.activeServers ([104], 9000) { sharedEntry with clients := sadd sharedEntry.clients 1 },
              clients := mset sharedState.clients 1 { sharedClient with boundServers := sadd sharedClient.boundServers ([104], 9000) } },
           [.wsSend 1 (encodeMessage 11 42 bindOkPayload)]) ∧
    mget oneClientState.activeServers ([104], 9000) = none ∧
    handleControlData oneClientState 0 (encodeMessage 10 42 (toBE16 9000 ++ [104])) ListenResult.ok =
      .ok ({ oneClientState with
              activeServers := mset oneClientState.activeServers ([104], 9000) { clients := [0], creator := 0 },
              openListeners := oneClientState.openListeners ++ [([104], 9000)],
              clients := mset oneClientState.clients 0 { newClientRecord with boundServers := sadd newClientRecord.boundServers ([104], 9000) } },
           [.log, .wsSend 0 (encodeMessage 11 42 bindOkPayload)]) ∧
    handleControlData oneClientState 0 (encodeMessage 10 42 (toBE16 9000 ++ [104]))
        (ListenResult.err "EADDRINUSE") =
      .ok (oneClientState, [.log, .wsSend 0 (encodeMessage 11 42 (bindErrPayload "EADDRINUSE"))]) := by
  refine ⟨rfl, rfl, ?_, rfl, ?_, ?_⟩
  · exact (C4_bind_handling sharedState 1 sharedClient 42 9000 [104] "x" rfl (by norm_num)
      (by norm_num)).1 sharedEntry rfl ListenResult.ok
  · exact (C4_bind_handling oneClientState 0 newClientRecord 42 9000 [104] "x" rfl (by norm_num)
      (by norm_num)).2.1 rfl
  · exact (C4_bind_handling oneClientState 0 newClientRecord 42 9000 [104] "EADDRINUSE" rfl
      (by norm_num) (by norm_num)).2.2 rfl

/-- C5: evaluation of the accept path at a shared bind entry.  With
participant set {0, 1} and creator 0, two consecutive accepts both
register their fresh links on channel 0 and send both OPEN frames there;
channel 1 never receives anything, so accepts are not distributed over
the participant set. -/
theorem C5_accepts_to_creator :
    sharedEntry.clients = [0, 1] ∧
    (acceptOn sharedState sharedKey 100).2 =
      [SEffect.log, SEffect.wsSend 0 (encodeMessage 0 100)] ∧
    (acceptOn (acceptOn sharedState sharedKey 100).1 sharedKey 200).2 =
      [SEffect.log, SEffect.wsSend 0 (encodeMessage 0 200)] ∧
    ((acceptOn (acceptOn sharedState sharedKey 100).1 sharedKey 200).1.clients.map
      (fun p => (p.1, p.2.links.map Prod.fst))) = [(0, [100, 200]), (1, [])] :=
  ⟨rfl, rfl, rfl, rfl⟩

/-- C6 counterexample: the close reason the code sends to a
non-whitelisted channel carries a trailing period, so it is not the
string "Client certificate not whitelisted" stated by the claim. -/
theorem C6_counterexample :
    onConnection initState 0 [] (some { pubkey := some [1, 2, 3] }) =
      (initState, [SEffect.log, SEffect.wsClose 1001 "Client certificate not whitelisted."]) ∧
    "Client certificate not whitelisted." ≠ "Client certificate not whitelisted" :=
  ⟨rfl, by decide⟩

/-- C6 (amended): admission computes the lowercase hex SHA-1 digest of
the presented public key; a channel whose digest is absent from the
allow-list snapshot is closed with code 1001 and reason "Client
certificate not whitelisted." (trailing period); a channel with no peer
certificate or no public key is closed with code 1001 before any frame is
processed (a channel without a record processes no frame); only
whitelisted channels get a client record. -/
theorem C6_admission_whitelist :
    (∀ (s : ServerState) (ws : Nat) (wl : List String),
        onConnection s ws wl none = (s, [.log, .wsClose 1001 "Client certificate required."])) ∧
    (∀ (s : ServerState) (ws : Nat) (wl : List String),
        onConnection s ws wl (some { pubkey := none }) =
          (s, [.log, .wsClose 1001 "Client certificate required."])) ∧
    (∀ (s : ServerState) (ws : Nat) (wl : List String) (pk : List Nat),
        isWhitelisted wl pk = false →
        onConnection s ws wl (some { pubkey := some pk }) =
          (s, [.log, .wsClose 1001 "Client certificate not whitelisted."])) ∧
    (∀ (s : ServerState) (ws : Nat) (msg : List Nat) (lr : ListenResult),
        mget s.clients ws = none → handleControlData s ws msg lr = .ok (s, [])) ∧
    (∀ (s : ServerState) (ws : Nat) (wl : List String) (pk : List Nat),
        isWhitelisted wl pk = true →
        onConnection s ws wl (some { pubkey := some pk }) =
          ({ s with clients := mset s.clients ws newClientRecord }, [.log])) ∧
    (∀ pk : List Nat, (sha1Hex pk).length = 40 ∧
        ∀ c ∈ (sha1Hex pk).data, c ∈ ("0123456789abcdef").data) := by
  have hhex : ∀ (n : Nat) (c : Char), c ∈ toHex32 n → c ∈ ("0123456789abcdef").data := by
    intro n c hc
    simp only [toHex32, List.mem_map, List.mem_range] at hc
    obtain ⟨j, _, rfl⟩ := hc
    have hall : ∀ m, m < 16 → hexDigit m ∈ ("0123456789abcdef").data := by decide
    exact hall _ (Nat.mod_lt _ (by norm_num))
  refine ⟨fun s ws wl => rfl, fun s ws wl => rfl, ?_, ?_, ?_, ?_⟩
  · intro s ws wl pk h
    simp [onConnection, h]
  · intro s ws msg lr h
    simp [handleControlData, h]
  · intro s ws wl pk h
    simp [onConnection, h]
  · intro pk
    constructor
    · simp [sha1Hex, String.length, toHex32]
    · intro c hc
      simp only [sha1Hex] at hc
      rcases List.mem_append.mp hc with hc' | hc'
      · rcases List.mem_append.mp hc' with hc'' | hc''
        · rcases List.mem_append.mp hc'' with hc3 | hc3
          · rcases List.mem_append.mp hc3 with hc4 | hc4
            · exact hhex _ _ hc4
            · exact hhex _ _ hc4
          · exact hhex _ _ hc3
        · exact hhex _ _ hc''
      · exact hhex _ _ hc'

/-- C6 witness: rejection and admission at concrete inputs. -/
theorem C6_witness :
    isWhitelisted [] [1] = false ∧
    onConnection initState 0 [] (some { pubkey := some [1] }) =
      (initState, [SEffect.log, SEffect.wsClose 1001 "Client certificate not whitelisted."]) ∧
    isWhitelisted [sha1Hex [1]] [1] = true ∧
    onConnection initState 0 [sha1Hex [1]] (some { pubkey := some [1] }) =
      ({ initState with clients := mset initState.clients 0 newClientRecord }, [SEffect.log]) ∧
    mget initState.clients 0 = none ∧
    handleControlData initState 0 (encodeMessage 2 5 [1]) ListenResult.ok = .ok (initState, []) := by
  refine ⟨rfl, ?_, by simp [isWhitelisted], ?_, rfl, ?_⟩
  · exact C6_admission_whitelist.2.2.1 _ _ _ _ rfl
  · exact C6_admission_whitelist.2.2.2.2.1 _ _ _ _ (by simp [isWhitelisted])
  · exact C6_admission_whitelist.2.2.2.1 _ _ _ _ rfl

/-- C10 witness: the resolution behavior at concrete frames, including a
type-11 frame whose link id (9) differs from the request's (7). -/
theorem C10_witness :
    handleBindResponse (encodeMessage 11 7 bindOkPayload) =
      handleBindResponse (encodeMessage 11 9 bindOkPayload) ∧
    handleBindResponse (encodeMessage 11 9 bindOkPayload) = .ok (some true) ∧
    (2 : Nat) < 4294967296 ∧ (7 : Nat) < 4294967296 ∧
    handleBindResponse (encodeMessage 2 7 [1]) = .ok none := by
  refine ⟨C10_bind_ack_matching.1 7 9 bindOkPayload, ?_, by norm_num, by norm_num, ?_⟩
  · rw [C10_bind_ack_matching.2.1 9 bindOkPayload]
    rw [show parseBindSuccess bindOkPayload = true from C10_bind_ack_matching.2.2.2.1]
  · exact C10_bind_ack_matching.2.2.1 2 7 [1] (by norm_num) (by norm_num) (by norm_num)

/-- C9: at every reachable server state every bind entry has a non-empty
client set and the number of open listeners equals the number of bind
entries; a successful listen on a fresh key records an entry whose client
set is exactly its creator; and when the last participating channel
closes, the ws close handler removes the entry and closes the listener in
that same step. -/
theorem C9_bind_registry :
    (∀ s : ServerState, Reachable s →
      (∀ p ∈ s.activeServers, p.2.clients ≠ []) ∧
      s.openListeners.length = s.activeServers.length) ∧
    (∀ (s : ServerState) (ws : Nat) (client : ClientRecord) (lid p0 p1 : Nat)
        (host : List Nat) (s' : ServerState) (effs : List SEffect),
        mget s.activeServers (host, p0 * 256 + p1) = none →
        handleBind s ws client lid (p0 :: p1 :: host) ListenResult.ok = .ok (s', effs) →
        mget s'.activeServers (host, p0 * 256 + p1) = some { clients := [ws], creator := ws }) ∧
    (∀ (s : ServerState) (ws : Nat) (client : ClientRecord) (key : BindKey) (entry : BindEntry),
        mget s.clients ws = some client → key ∈ client.boundServers →
        mget s.activeServers key = some entry → sdel entry.clients ws = [] →
        mget (onWsClose s ws).1.activeServers key = none ∧
        SEffect.listenerClose key ∈ (onWsClose s ws).2) := by
  refine ⟨?_, ?_, ?_⟩
  · intro s h
    have hI := reachable_bindInv s h
    exact ⟨hI.1, by rw [hI.2, List.length_map]⟩
  · intro s ws client lid p0 p1 host s' effs hnone h
    simp only [handleBind, hnone, Except.ok.injEq, Prod.mk.injEq] at h
    obtain ⟨h1, h2⟩ := h
    rw [← h1]
    exact mget_mset_self _ _ _
  · intro s ws client key entry hc hkey hg hz
    have hrm := foldl_removeOneBind_removes ws key client.boundServers
      (s.activeServers, s.openListeners, []) entry hg hz hkey
    simp only [onWsClose, hc]
    exact ⟨hrm.1, List.mem_append_left _ hrm.2⟩

/-- C9 witness: the invariant at the initial state, the fresh-key bind
outcome, and the last-participant teardown at concrete states. -/
theorem C9_witness :
    Reachable initState ∧
    (∀ p ∈ initState.activeServers, p.2.clients ≠ []) ∧
    initState.openListeners.length = initState.activeServers.length ∧
    mget oneClientState.activeServers ([104], 9000) = none ∧
    mget (mset oneClientState.activeServers ([104], 9000) { clients := [0], creator := 0 })
      ([104], 9000) = some { clients := [0], creator := 0 } ∧
    mget soloState.clients 0 = some sharedClient ∧
    sharedKey ∈ sharedClient.boundServers ∧
    mget soloState.activeServers sharedKey = some { clients := [0], creator := 0 } ∧
    sdel ({ clients := [0], creator := 0 } : BindEntry).clients 0 = [] ∧
    mget (onWsClose soloState 0).1.activeServers sharedKey = none ∧
    SEffect.listenerClose sharedKey ∈ (onWsClose soloState 0).2 := by
  have hreach : Reachable initState := Relation.ReflTransGen.refl
  have hinv := C9_bind_registry.1 initState hreach
  have hbind := C9_bind_registry.2.1 oneClientState 0 newClientRecord 42 35 40 [104]
    ({ oneClientState with
        activeServers := mset oneClientState.activeServers ([104], 9000) { clients := [0], creator := 0 },
        openListeners := oneClientState.openListeners ++ [([104], 9000)],
        clients := mset oneClientState.clients 0 { newClientRecord with boundServers := sadd newClientRecord.boundServers ([104], 9000) } })
    [.log, .wsSend 0 (encodeMessage 11 42 bindOkPayload)] rfl (by rfl)
  have hclose := C9_bind_registry.2.2 soloState 0 sharedClient sharedKey
    { clients := [0], creator := 0 } rfl (by decide) rfl (by decide)
  exact ⟨hreach, hinv.1, hinv.2, rfl, hbind, rfl, by decide, rfl, by decide,
    hclose.1, hclose.2⟩

end RTunnel
